import Mathlib

/-!
# Verification of the `proctl` process-control engine

A shallow embedding of the debugger's process-control core (package
`proctl`: `proctl.go`, `proctl_linux.go`, `proctl_darwin.go`,
`threads.go`) together with proofs about its claims.

Modelling conventions:
* Go maps become association lists with map semantics (lookup finds the
  first matching key; erase removes every entry with the key; insert
  replaces).
* `uint64` program counters become `Nat`; the `pc - 1` adjustment uses
  the explicit wrap-around `dec64`.
* Backend syscalls (ptrace, mach, register and memory access) are
  represented by oracle parameters giving their results, and the calls
  a function issues are recorded in a trace of `BAction`s.
* The breakpoint install/remove primitives (`setBreakpoint`,
  `clearBreakpoint`) are not part of the given sources; they are
  modelled from the spec, as marked on their doc comments.
-/

/-- Errors of the engine, mirroring the error values of the `proctl`
package (`ManualStopError`, `ProcessExitedError`, `BreakPointExistsError`,
`NoSuchBreakpoint`, the formatted errors of `SwitchThread`, `FindLocation`
and `Continue`, and backend syscall failures). `panicErr` stands for a Go
runtime panic (nil-pointer dereference). -/
inductive Err where
  | manualStop : Err
  | processExited (pid status : Nat) : Err
  | breakpointExists (addr : Nat) : Err
  | noSuchBreakpoint (addr : Nat) : Err
  | noSuchThread (tid : Nat) : Err
  | locationNotFound (s : String) : Err
  | unrecognizedBreakpoint (pc : Nat) : Err
  | backend (msg : String) : Err
  | panicErr : Err
  deriving DecidableEq, Repr

/-- Target-state-changing backend calls a function issues, recorded as a
trace: breakpoint clear/install, PC write, raw single-step
(`ThreadContext.singleStep`), breakpoint-aware step (`ThreadContext.Step`),
per-thread continue, process-wide halt. -/
inductive BAction where
  | clearBP (addr : Nat) : BAction
  | plantBP (addr : Nat) : BAction
  | setPC (tid addr : Nat) : BAction
  | singleStep (tid : Nat) : BAction
  | stepThread (tid : Nat) : BAction
  | contThread (tid : Nat) : BAction
  | haltAll : BAction
  deriving DecidableEq, Repr

/-- One active breakpoint (struct `BreakPoint`): stable ID, target
address, and the `Temp` flag.  The original instruction byte and the
hardware register slot are not observable at the layer the claims live
at; a hardware breakpoint is one stored in a `HWBreakPoints` slot. -/
structure BreakPoint where
  id : Nat
  addr : Nat
  temp : Bool
  deriving DecidableEq, Repr

/-- The claim-relevant state of struct `DebuggedProcess`: pid, the four
hardware-breakpoint slots, the software breakpoint map (addr ↦
breakpoint), the thread registry (as the set of registered thread ids),
the current thread (`none` = nil), the monotonic breakpoint id counter
and the `running` / `halt` flags. -/
structure DebuggedProcess where
  pid : Nat
  hwBreakPoints : List (Option BreakPoint)
  breakPoints : List (Nat × BreakPoint)
  threads : List Nat
  currentThread : Option Nat
  breakpointIDCounter : Nat
  running : Bool
  halt : Bool
  deriving DecidableEq, Repr

/-- `pc - 1` on a 64-bit unsigned program counter (wraps at zero). -/
def dec64 (pc : Nat) : Nat :=
  if pc = 0 then 2 ^ 64 - 1 else pc - 1

/-- Go-map lookup on the software breakpoint map: first entry with the
given address key. -/
def swLookup (l : List (Nat × BreakPoint)) (a : Nat) : Option BreakPoint :=
  match l with
  | [] => none
  | (k, bp) :: rest => if k = a then some bp else swLookup rest a

/-- Go-map `delete`: remove every entry with the given key. -/
def swErase (l : List (Nat × BreakPoint)) (a : Nat) : List (Nat × BreakPoint) :=
  l.filter (fun p => decide (p.1 ≠ a))

/-- Go-map assignment: replace any entry at the key. -/
def swInsert (l : List (Nat × BreakPoint)) (a : Nat) (bp : BreakPoint) :
    List (Nat × BreakPoint) :=
  (a, bp) :: swErase l a

/-- First hardware slot holding a breakpoint with the given address. -/
def hwFind (slots : List (Option BreakPoint)) (a : Nat) : Option BreakPoint :=
  match slots with
  | [] => none
  | none :: rest => hwFind rest a
  | some bp :: rest => if bp.addr = a then some bp else hwFind rest a

/-- Free the first hardware slot holding a breakpoint at the address. -/
def hwClear (slots : List (Option BreakPoint)) (a : Nat) : List (Option BreakPoint) :=
  match slots with
  | [] => []
  | none :: rest => none :: hwClear rest a
  | some bp :: rest =>
    if bp.addr = a then none :: rest else some bp :: hwClear rest a

/-- Place a breakpoint into the first free hardware slot, if any
(slots fill densely from index 0). -/
def hwPlace (slots : List (Option BreakPoint)) (bp : BreakPoint) :
    Option (List (Option BreakPoint)) :=
  match slots with
  | [] => none
  | none :: rest => some (some bp :: rest)
  | some b :: rest => (hwPlace rest bp).map (fun l => some b :: l)

/-- Set the `Temp` flag of the hardware breakpoint at the address. -/
def hwMarkTemp (slots : List (Option BreakPoint)) (a : Nat) : List (Option BreakPoint) :=
  match slots with
  | [] => []
  | none :: rest => none :: hwMarkTemp rest a
  | some bp :: rest =>
    if bp.addr = a then some { bp with temp := true } :: rest
    else some bp :: hwMarkTemp rest a

/-- The breakpoint covering an address, hardware slots first. -/
def bpAt (dbp : DebuggedProcess) (a : Nat) : Option BreakPoint :=
  match hwFind dbp.hwBreakPoints a with
  | some bp => some bp
  | none => swLookup dbp.breakPoints a

/-- Modelled from the spec: `DebuggedProcess.setBreakpoint` is not among
the given sources.  Install policy per the spec's Breakpoint Engine:
fail with `BreakpointExists` if any breakpoint (hardware or software)
already covers `addr`; otherwise assign the next id from the monotonic
counter and prefer a free hardware slot (filled densely from index 0),
falling back to the software map. -/
def setBreakpoint (dbp : DebuggedProcess) (addr : Nat) :
    Except Err (DebuggedProcess × BreakPoint) :=
  if (bpAt dbp addr).isSome then .error (.breakpointExists addr)
  else
    let id := dbp.breakpointIDCounter + 1
    let bp : BreakPoint := { id := id, addr := addr, temp := false }
    match hwPlace dbp.hwBreakPoints bp with
    | some slots =>
      .ok ({ dbp with hwBreakPoints := slots, breakpointIDCounter := id }, bp)
    | none =>
      .ok ({ dbp with breakPoints := swInsert dbp.breakPoints addr bp,
                      breakpointIDCounter := id }, bp)

/-- Modelled from the spec: `DebuggedProcess.clearBreakpoint` is not
among the given sources.  Clear semantics per the spec: free the
hardware slot, or restore the original byte and drop the software map
entry; fail with `NoSuchBreakpoint` if no breakpoint covers `addr`.
Hardware slots are consulted first (matching the hardware-then-software
search order used elsewhere in the package). -/
def clearBreakpoint (dbp : DebuggedProcess) (addr : Nat) :
    Except Err (DebuggedProcess × BreakPoint) :=
  match hwFind dbp.hwBreakPoints addr with
  | some bp => .ok ({ dbp with hwBreakPoints := hwClear dbp.hwBreakPoints addr }, bp)
  | none =>
    match swLookup dbp.breakPoints addr with
    | some bp => .ok ({ dbp with breakPoints := swErase dbp.breakPoints addr }, bp)
    | none => .error (.noSuchBreakpoint addr)

/-- `DebuggedProcess.Running`. -/
def Running (dbp : DebuggedProcess) : Bool :=
  dbp.running

/-- `DebuggedProcess.run`: set `running`, reset `halt`, run the driver
body, clear `running` on exit (the deferred assignment), and swallow a
`ManualStopError` while propagating every other error. -/
def run (dbp : DebuggedProcess) (f : DebuggedProcess → DebuggedProcess × Option Err) :
    DebuggedProcess × Option Err :=
  let d0 := { dbp with running := true, halt := false }
  let r := f d0
  let d2 := { r.1 with running := false }
  match r.2 with
  | none => (d2, none)
  | some e => if e = .manualStop then (d2, none) else (d2, some e)

/-- `DebuggedProcess.Break` (dispatches to `setBreakpoint` on the
current thread). -/
def Break (dbp : DebuggedProcess) (addr : Nat) :
    Except Err (DebuggedProcess × BreakPoint) :=
  setBreakpoint dbp addr

/-- `DebuggedProcess.Clear` (dispatches to `clearBreakpoint` on the
current thread). -/
def Clear (dbp : DebuggedProcess) (addr : Nat) :
    Except Err (DebuggedProcess × BreakPoint) :=
  clearBreakpoint dbp addr

/-- Set the `Temp` flag of the breakpoint stored at `addr` (the
source's `bp.Temp = true` through the pointer returned by `Break`,
updating the breakpoint in whichever table holds it). -/
def markTemp (dbp : DebuggedProcess) (addr : Nat) : DebuggedProcess :=
  match hwFind dbp.hwBreakPoints addr with
  | some _ => { dbp with hwBreakPoints := hwMarkTemp dbp.hwBreakPoints addr }
  | none =>
    let upd := dbp.breakPoints.map
      (fun p => if p.1 = addr then (p.1, { p.2 with temp := true }) else p)
    { dbp with breakPoints := upd }

/-- The deferred cleanup of `DebuggedProcess.Next`: range over the
software breakpoint map and `Clear` every breakpoint whose `Temp` flag
is set, ignoring `Clear`'s result.  `go` folds over the snapshot of the
map entries while the state is mutated. -/
def clearTempGo (l : List (Nat × BreakPoint)) (dbp : DebuggedProcess) :
    DebuggedProcess :=
  match l with
  | [] => dbp
  | (_, bp) :: rest =>
    if bp.temp then
      match Clear dbp bp.addr with
      | .ok r => clearTempGo rest r.1
      | .error _ => clearTempGo rest dbp
    else clearTempGo rest dbp

/-- See `clearTempGo`: the loop of `DebuggedProcess.Next`'s `defer`. -/
def clearTempBreakpoints (dbp : DebuggedProcess) : DebuggedProcess :=
  clearTempGo dbp.breakPoints dbp

/-- `DebuggedProcess.Next`: the driver body `fn` (per-thread nexts, the
trap-wait loop and the final halt, abstracted as `body` since they are
backend interactions) runs under the deferred temporary-breakpoint
cleanup, and the whole is wrapped in `run`. -/
def nextDriver (dbp : DebuggedProcess)
    (body : DebuggedProcess → DebuggedProcess × Option Err) :
    DebuggedProcess × Option Err :=
  run dbp (fun d => let r := body d; (clearTempBreakpoints r.1, r.2))

/-- `ThreadContext.ReturnAddressFromOffset`: the 8 bytes of target
memory at `SP + offset`, little-endian decoded.  `mem a` is the decoded
value stored at address `a`. -/
def ReturnAddressFromOffset (sp : Nat) (mem : Int → Nat) (offset : Int) : Nat :=
  mem (Int.ofNat sp + offset)

/-- The planting loop of `ThreadContext.Next`.  `rows` is the stream of
successive line-table rows delivered by `LineInfo.NextLocation`
(addresses only; a finite prefix of the stream), `pc` the
breakpoint-adjusted program counter, `fdeEnd` the value of `fde.End()`,
`retOff` the value of `fde.ReturnAddressOffset(pc)`, `sp` and `mem` the
stack pointer and target memory.  Returns the final state, the trace of
attempted breakpoint plants, and an error if one aborts the loop. -/
def threadNextLoop (pc fdeEnd sp : Nat) (mem : Int → Nat) (retOff : Int)
    (dbp : DebuggedProcess) (rows : List Nat) :
    DebuggedProcess × List BAction × Option Err :=
  match rows with
  | [] => (dbp, [], none)
  | a :: rest =>
    if a = pc then threadNextLoop pc fdeEnd sp mem retOff dbp rest
    else if fdeEnd ≤ a then
      let ret := ReturnAddressFromOffset sp mem (retOff - 8)
      match Break dbp ret with
      | .ok r => (markTemp r.1 ret, [.plantBP ret], none)
      | .error _ => (dbp, [.plantBP ret], none)
    else
      match Break dbp a with
      | .ok r =>
        let rec2 := threadNextLoop pc fdeEnd sp mem retOff (markTemp r.1 a) rest
        (rec2.1, .plantBP a :: rec2.2.1, rec2.2.2)
      | .error e =>
        match e with
        | .breakpointExists _ =>
          let rec2 := threadNextLoop pc fdeEnd sp mem retOff dbp rest
          (rec2.1, .plantBP a :: rec2.2.1, rec2.2.2)
        | _ => (dbp, [.plantBP a], some e)

/-- `ThreadContext.Step`: if a software breakpoint covers `pc - 1`,
clear it, rewind the PC to its address (`setPCErr` is the oracle for
the register write), register the deferred re-arm, then single-step
(`stepErr` is the oracle for the step).  The deferred `Break` assigns
the named return value, so in the breakpoint case the re-arm's result
is what `Step` returns. -/
def threadStep (dbp : DebuggedProcess) (tid pc : Nat)
    (setPCErr stepErr : Option Err) :
    DebuggedProcess × List BAction × Option Err :=
  match swLookup dbp.breakPoints (dec64 pc) with
  | some bp =>
    match Clear dbp bp.addr with
    | .error e => (dbp, [], some e)
    | .ok r =>
      match setPCErr with
      | some e => (r.1, [.clearBP bp.addr, .setPC tid bp.addr], some e)
      | none =>
        let rearm :=
          match Break r.1 bp.addr with
          | .ok r2 => (r2.1, (none : Option Err))
          | .error e => (r.1, some e)
        (rearm.1,
         [.clearBP bp.addr, .setPC tid bp.addr, .singleStep tid, .plantBP bp.addr],
         rearm.2)
  | none =>
    match stepErr with
    | some _ => (dbp, [.singleStep tid], some (.backend "step failed"))
    | none => (dbp, [.singleStep tid], none)

/-- First hardware slot whose breakpoint address equals the trap PC
(the hardware check of `DebuggedProcess.Continue`). -/
def hwMatch (slots : List (Option BreakPoint)) (pc : Nat) : Option BreakPoint :=
  hwFind slots pc

/-- The trap dispatch of `DebuggedProcess.Continue` after the trapping
thread has been looked up and made current: resolve the function at
`pc` (`pcToFunc`); on the runtime breakpoint intrinsic step the thread
twice (`stepErrs i` is the oracle for the i-th `ThreadContext.Step`,
kept opaque here) and halt, ignoring the halt's result; otherwise match
the hardware slots against `pc` and the software map against `pc - 1`,
halting (result `haltErr`) on a non-temporary hit, passing through on a
temporary one, and failing with `unrecognizedBreakpoint` when nothing
matches. -/
def continueDispatch (pcToFunc : Nat → Option String)
    (stepErrs : Nat → Option Err) (haltErr : Option Err)
    (dbp : DebuggedProcess) (tid pc : Nat) :
    List BAction × Option Err :=
  if pcToFunc pc = some "runtime.breakpoint" then
    match stepErrs 0 with
    | some e => ([.stepThread tid], some e)
    | none =>
      match stepErrs 1 with
      | some e => ([.stepThread tid, .stepThread tid], some e)
      | none => ([.stepThread tid, .stepThread tid, .haltAll], none)
  else
    match hwMatch dbp.hwBreakPoints pc with
    | some bp => if bp.temp then ([], none) else ([.haltAll], haltErr)
    | none =>
      match swLookup dbp.breakPoints (dec64 pc) with
      | some bp => if bp.temp then ([], none) else ([.haltAll], haltErr)
      | none => ([], some (.unrecognizedBreakpoint pc))

/-- The thread-switch prefix of `DebuggedProcess.Continue`'s driver
body: look the trapped pid up in the registry (error if absent), then
switch `CurrentThread` to it when it differs from the current one.
Reading `CurrentThread.Id` while `CurrentThread` is nil is a Go nil
dereference, modelled as `panicErr`. -/
def contSwitch (dbp : DebuggedProcess) (wpid : Nat) :
    DebuggedProcess × Option Err :=
  if wpid ∈ dbp.threads then
    match dbp.currentThread with
    | some t =>
      if wpid ≠ t then ({ dbp with currentThread := some wpid }, none)
      else (dbp, none)
    | none => (dbp, some .panicErr)
  else (dbp, some (.backend "could not find thread"))

/-- `DebuggedProcess.SwitchThread`. -/
def SwitchThread (dbp : DebuggedProcess) (tid : Nat) :
    DebuggedProcess × Option Err :=
  if tid ∈ dbp.threads then ({ dbp with currentThread := some tid }, none)
  else (dbp, some (.noSuchThread tid))

/-- The numeric value of a digit character in the given base. -/
def digitVal (base : Nat) (c : Char) : Option Nat :=
  let v :=
    if '0' ≤ c ∧ c ≤ '9' then some (c.toNat - '0'.toNat)
    else if 'a' ≤ c ∧ c ≤ 'f' then some (c.toNat - 'a'.toNat + 10)
    else if 'A' ≤ c ∧ c ≤ 'F' then some (c.toNat - 'A'.toNat + 10)
    else none
  match v with
  | some d => if d < base then some d else none
  | none => none

/-- Parse a non-empty digit string in the given base. -/
def parseDigits (base : Nat) (cs : List Char) : Option Nat :=
  match cs with
  | [] => none
  | _ =>
    cs.foldl
      (fun acc c =>
        match acc, digitVal base c with
        | some n, some d => some (n * base + d)
        | _, _ => none)
      (some 0)

/-- Modelled from the spec: `strconv.ParseUint(str, 0, 64)` (standard
library, not among the given sources).  Per the spec's location
resolver: an unsigned integer in any base with the standard prefixes
`0x`, `0o`, `0b`, or plain decimal, restricted to 64 bits. -/
def parseUintSpec (s : String) : Option Nat :=
  let cs := s.toList
  let core :=
    match cs with
    | '0' :: x :: rest =>
      if x = 'x' ∨ x = 'X' then parseDigits 16 rest
      else if x = 'o' ∨ x = 'O' then parseDigits 8 rest
      else if x = 'b' ∨ x = 'B' then parseDigits 2 rest
      else parseDigits 10 cs
    | _ => parseDigits 10 cs
  match core with
  | some v => if v < 2 ^ 64 then some v else none
  | none => none

/-- Address of the first hardware breakpoint (slots scanned in order,
nil slots skipped) whose ID equals `id`. -/
def hwFindById (slots : List (Option BreakPoint)) (id : Nat) : Option Nat :=
  match slots with
  | [] => none
  | none :: rest => hwFindById rest id
  | some bp :: rest => if bp.id = id then some bp.addr else hwFindById rest id

/-- Address of the first software-map breakpoint whose ID equals `id`. -/
def swFindById (l : List (Nat × BreakPoint)) (id : Nat) : Option Nat :=
  match l with
  | [] => none
  | (_, bp) :: rest => if bp.id = id then some bp.addr else swFindById rest id

/-- `DebuggedProcess.FindLocation`.  `fileLineResult` abstracts the
file:line branch (absolute-path resolution, `Atoi` and
`GoSymTable.LineToPC`); `lookupFuncEntry` abstracts
`GoSymTable.LookupFunc`, returning the function's entry PC. -/
def FindLocation (lookupFuncEntry : String → Option Nat)
    (fileLineResult : Except Err Nat) (dbp : DebuggedProcess) (str : String) :
    Except Err Nat :=
  if str.toList.contains ':' then fileLineResult
  else
    match lookupFuncEntry str with
    | some entry => .ok entry
    | none =>
      match parseUintSpec str with
      | none => .error (.locationNotFound str)
      | some id =>
        match hwFindById dbp.hwBreakPoints id with
        | some a => .ok a
        | none =>
          match swFindById dbp.breakPoints id with
          | some a => .ok a
          | none => .ok id

/-- Result of the initial `PtraceAttach` in the ptrace-host
`addThread`: success, `EPERM` (tolerated — the thread may already be
traced through `PTRACE_O_TRACECLONE`), or another failure. -/
inductive AttachRes where
  | ok : AttachRes
  | eperm : AttachRes
  | fail : AttachRes
  deriving DecidableEq, Repr

/-- Result of `PtraceSetOptions(tid, PTRACE_O_TRACECLONE)` together
with the retry the source performs on `ESRCH`: plain success; a
non-`ESRCH` error (which the source ignores); or `ESRCH` followed by a
wait (`waitErr`) and a retry (`retryErr`), either of which aborts. -/
inductive SetOptsRes where
  | ok : SetOptsRes
  | ignoredErr : SetOptsRes
  | esrch (waitErr : Option Err) (retryErr : Option Err) : SetOptsRes
  deriving DecidableEq, Repr

/-- Oracles for the backend calls of the ptrace-host `addThread`:
the attach result, the initial wait (error, or whether the wait status
reports the thread exited), and the trace-clone option call. -/
structure LinuxThreadOracle where
  attach : AttachRes
  attachWait : Except Err Bool
  setOpts : SetOptsRes
  deriving Repr

/-- The ptrace-host `DebuggedProcess.addThread`: return the existing
context when `tid` is already registered; otherwise attach (when asked,
tolerating `EPERM`), wait for the initial stop, set the trace-clone
option (retrying once on `ESRCH`), register the thread and make it
current when no current thread exists.  Returns the registered thread
id on success. -/
def addThreadL (dbp : DebuggedProcess) (tid : Nat) (attach : Bool)
    (oracle : LinuxThreadOracle) :
    DebuggedProcess × List BAction × Except Err Nat :=
  if tid ∈ dbp.threads then (dbp, [], .ok tid)
  else
    let attachStep : Option Err :=
      if attach then
        match oracle.attach with
        | .fail => some (.backend "could not attach to new thread")
        | _ =>
          match oracle.attachWait with
          | .error e => some e
          | .ok exited =>
            if exited then some (.backend "thread already exited") else none
      else none
    match attachStep with
    | some e => (dbp, [], .error e)
    | none =>
      let optsStep : Option Err :=
        match oracle.setOpts with
        | .ok => none
        | .ignoredErr => none
        | .esrch waitErr retryErr =>
          match waitErr with
          | some e => some e
          | none =>
            match retryErr with
            | some e => some e
            | none => none
      match optsStep with
      | some e => (dbp, [], .error e)
      | none =>
        let d1 := { dbp with threads := tid :: dbp.threads }
        let d2 :=
          match d1.currentThread with
          | none => { d1 with currentThread := some tid }
          | some _ => d1
        (d2, [], .ok tid)

/-- The mach-host `DebuggedProcess.addThread`: return the existing
context when `port` is already registered; otherwise register the
thread and make it current when no current thread exists.  No backend
call is involved. -/
def addThreadD (dbp : DebuggedProcess) (port : Nat) :
    DebuggedProcess × Nat :=
  if port ∈ dbp.threads then (dbp, port)
  else
    let d1 := { dbp with threads := port :: dbp.threads }
    let d2 :=
      match d1.currentThread with
      | none => { d1 with currentThread := some port }
      | some _ => d1
    (d2, port)

/-- One iteration's worth of input to the ptrace-host `trapWait` loop:
the outcome of `wait` (`waitFailed`, `wpid`, and the wait-status
queries the loop performs), plus the oracles for the backend calls of
the trace-clone branch (`PtraceGetEventMsg`, the `addThread` of the
clone, and the two `ThreadContext.Continue` calls on child and parent).
Recording the status on the thread (`th.Status = status`) carries no
claim content and is not modelled. -/
structure LinuxWaitEvent where
  waitFailed : Bool
  wpid : Nat
  exited : Bool
  exitCode : Nat
  sigtrap : Bool
  cloneEvent : Bool
  cloneMsgErr : Bool
  cloneTid : Nat
  threadOracle : LinuxThreadOracle
  contChildErr : Option Err
  contParentErr : Option Err
  sigstop : Bool

/-- The ptrace-host `trapWait` loop over a finite prefix of the wait
events (an exhausted prefix is a modelling artifact reported as a
backend error).  Per event: a `wait` failure aborts; `wpid == 0` keeps
waiting; an exit of the main pid reports `ProcessExited`; a `SIGTRAP`
with trap cause `PTRACE_EVENT_CLONE` reads the cloned tid from the
event message, adds the thread, continues child then parent and keeps
waiting; a plain `SIGTRAP` returns the pid; a `SIGSTOP` while `halt` is
set reports `ManualStop`; anything else keeps waiting.
`ThreadContext.Continue` is abstracted as a `contThread` action with an
error oracle. -/
def trapWaitL (dbp : DebuggedProcess) :
    List LinuxWaitEvent → DebuggedProcess × List BAction × Except Err Nat
  | [] => (dbp, [], .error (.backend "wait event stream exhausted"))
  | e :: rest =>
    if e.waitFailed then (dbp, [], .error (.backend "wait err"))
    else if e.wpid = 0 then trapWaitL dbp rest
    else if e.exited ∧ e.wpid = dbp.pid then
      (dbp, [], .error (.processExited e.wpid e.exitCode))
    else if e.sigtrap ∧ e.cloneEvent then
      if e.cloneMsgErr then
        (dbp, [], .error (.backend "could not get event message"))
      else
        let r1 := addThreadL dbp e.cloneTid false e.threadOracle
        match r1.2.2 with
        | .error err => (r1.1, r1.2.1, .error err)
        | .ok _ =>
          match e.contChildErr with
          | some _ =>
            (r1.1, r1.2.1 ++ [.contThread e.cloneTid],
             .error (.backend "could not continue new thread"))
          | none =>
            match e.contParentErr with
            | some _ =>
              (r1.1, r1.2.1 ++ [.contThread e.cloneTid, .contThread e.wpid],
               .error (.backend "could not continue new thread"))
            | none =>
              let r2 := trapWaitL r1.1 rest
              (r2.1,
               r1.2.1 ++ [.contThread e.cloneTid, .contThread e.wpid] ++ r2.2.1,
               r2.2.2)
    else if e.sigtrap then (dbp, [], .ok e.wpid)
    else if e.sigstop ∧ dbp.halt then (dbp, [], .error .manualStop)
    else trapWaitL dbp rest

/-- The value `MACH_RCV_INTERRUPTED` compared against the fired port. -/
def machRcvInterrupted : Nat := 0x10004005

/-- The mach-host `DebuggedProcess.updateThreadList`: query the task's
threads (`kernel = none` models a failed count or list query) and add
every port not yet registered. -/
def updateThreadListD (dbp : DebuggedProcess) (kernel : Option (List Nat)) :
    DebuggedProcess × Option Err :=
  match kernel with
  | none => (dbp, some (.backend "could not get thread count"))
  | some l => (l.foldl (fun d p => (addThreadD d p).1) dbp, none)

/-- The mach-host `trapWait`: wait on the port set; an interrupted
receive reports `ManualStop`; the notification port firing reports the
process exit (after a `wait`, whose result is `exitWait`); port 0 is a
wait failure.  Otherwise reconcile the thread registry — discarding
`updateThreadList`'s error, as the source does — and, when the fired
port differs from the current thread's id, set `CurrentThread` to the
registry entry for the port (Go map indexing: nil when the port is not
registered). -/
def trapWaitD (dbp : DebuggedProcess) (notificationPort port : Nat)
    (kernel : Option (List Nat)) (exitWait : Except Err Nat) :
    DebuggedProcess × Except Err Nat :=
  if port = machRcvInterrupted then (dbp, .error .manualStop)
  else if port = notificationPort then
    match exitWait with
    | .error e => (dbp, .error e)
    | .ok status => (dbp, .error (.processExited dbp.pid status))
  else if port = 0 then (dbp, .error (.backend "error while waiting for task"))
  else
    let d1 := (updateThreadListD dbp kernel).1
    match d1.currentThread with
    | none => (d1, .error .panicErr)
    | some t =>
      if port ≠ t then
        ({ d1 with currentThread :=
             if port ∈ d1.threads then some port else none }, .ok port)
      else (d1, .ok port)

/-- Decidable form of the current-thread invariant. -/
def currentThreadInvB (dbp : DebuggedProcess) : Bool :=
  match dbp.currentThread with
  | none => decide (dbp.threads = [])
  | some t => decide (t ∈ dbp.threads)

/-- The spec's registry invariant: `CurrentThread` is nil only before
any thread has been discovered, and otherwise names a thread present in
the registry. -/
abbrev currentThreadInv (dbp : DebuggedProcess) : Prop :=
  currentThreadInvB dbp = true

/-- A process state with no breakpoints and no threads, used as a
concrete evaluation point. -/
def dpEmpty : DebuggedProcess :=
  { pid := 1, hwBreakPoints := [none, none, none, none], breakPoints := [],
    threads := [], currentThread := none, breakpointIDCounter := 0,
    running := false, halt := false }

/-- A threadless state holding one temporary hardware breakpoint (as
planted by a per-thread `Next` while a hardware slot was free). -/
def dpHwTemp : DebuggedProcess :=
  { pid := 1,
    hwBreakPoints := [some { id := 1, addr := 4096, temp := true }, none, none, none],
    breakPoints := [], threads := [], currentThread := none,
    breakpointIDCounter := 1, running := false, halt := false }

/-- A state with one thread and one software breakpoint at address 99
(so a trap PC of 100 is covered), all hardware slots free. -/
def dpSw99 : DebuggedProcess :=
  { pid := 1, hwBreakPoints := [none, none, none, none],
    breakPoints := [(99, { id := 3, addr := 99, temp := false })],
    threads := [1], currentThread := some 1, breakpointIDCounter := 3,
    running := true, halt := false }

/-- A state with one registered thread, used to evaluate the wait
loops at concrete inputs. -/
def dpOneThread : DebuggedProcess :=
  { pid := 1, hwBreakPoints := [none, none, none, none], breakPoints := [],
    threads := [1], currentThread := some 1, breakpointIDCounter := 0,
    running := true, halt := false }

/-- A state with a hardware breakpoint of ID 7 at 4096 and a software
breakpoint of ID 9 at 8192, for exercising the location resolver. -/
def dpIds : DebuggedProcess :=
  { pid := 1,
    hwBreakPoints := [some { id := 7, addr := 4096, temp := false }, none, none, none],
    breakPoints := [(8192, { id := 9, addr := 8192, temp := false })],
    threads := [1], currentThread := some 1, breakpointIDCounter := 9,
    running := false, halt := false }

/-- A clone wait event (tid 2 spawned by thread 1) whose backend
oracles all succeed. -/
def cloneEventOk : LinuxWaitEvent :=
  { waitFailed := false, wpid := 1, exited := false, exitCode := 0,
    sigtrap := true, cloneEvent := true, cloneMsgErr := false, cloneTid := 7,
    threadOracle := { attach := .ok, attachWait := .ok false, setOpts := .ok },
    contChildErr := none, contParentErr := none, sigstop := false }

/-- A state holding one temporary and one permanent software
breakpoint (hardware slots all free). -/
def dpSwMix : DebuggedProcess :=
  { pid := 1, hwBreakPoints := [none, none, none, none],
    breakPoints := [(99, { id := 3, addr := 99, temp := true }),
                    (120, { id := 4, addr := 120, temp := false })],
    threads := [], currentThread := none, breakpointIDCounter := 4,
    running := false, halt := false }

/-! ## Basic lemmas about the breakpoint tables -/

theorem swLookup_swErase_self (l : List (Nat × BreakPoint)) (a : Nat) :
    swLookup (swErase l a) a = none := by
  induction l with
  | nil => rfl
  | cons p rest ih =>
    by_cases h : p.1 = a
    · simpa [swErase, List.filter_cons, h] using ih
    · simpa [swErase, List.filter_cons, swLookup, h] using ih

theorem swLookup_isSome (l : List (Nat × BreakPoint)) (a : Nat)
    (h : ∃ p ∈ l, p.1 = a) : (swLookup l a).isSome := by
  induction l with
  | nil => simp at h
  | cons q rest ih =>
    by_cases hk : q.1 = a
    · simp [swLookup, hk]
    · rcases h with ⟨p, hp, hpa⟩
      rcases List.mem_cons.mp hp with rfl | hp'
      · exact absurd hpa hk
      · simpa [swLookup, hk] using ih ⟨p, hp', hpa⟩

theorem eq_of_mem_keys_nodup (l : List (Nat × BreakPoint))
    (hnd : (l.map Prod.fst).Nodup) (p q : Nat × BreakPoint)
    (hp : p ∈ l) (hq : q ∈ l) (h : p.1 = q.1) : p = q := by
  induction l with
  | nil => simp at hp
  | cons r rest ih =>
    simp only [List.map_cons, List.nodup_cons] at hnd
    rcases List.mem_cons.mp hp with rfl | hp'
    · rcases List.mem_cons.mp hq with rfl | hq'
      · rfl
      · exact absurd (h ▸ List.mem_map_of_mem Prod.fst hq') hnd.1
    · rcases List.mem_cons.mp hq with rfl | hq'
      · exact absurd (h ▸ List.mem_map_of_mem Prod.fst hp') (by simpa using hnd.1)
      · exact ih hnd.2 hp' hq'

theorem hwFind_hwMarkTemp (slots : List (Option BreakPoint)) (a : Nat)
    (bp : BreakPoint) (h : hwFind slots a = some bp) :
    hwFind (hwMarkTemp slots a) a = some { bp with temp := true } := by
  induction slots with
  | nil => simp [hwFind] at h
  | cons s rest ih =>
    cases s with
    | none =>
      simp only [hwFind] at h
      simpa [hwMarkTemp, hwFind] using ih h
    | some b =>
      by_cases hb : b.addr = a
      · simp only [hwFind, if_pos hb] at h
        cases h
        simp [hwMarkTemp, hwFind, hb]
      · simp only [hwFind, if_neg hb] at h
        simpa [hwMarkTemp, hwFind, hb] using ih h

theorem hwFind_hwPlace (slots : List (Option BreakPoint)) (bp : BreakPoint) :
    ∀ slots', hwFind slots bp.addr = none → hwPlace slots bp = some slots' →
      hwFind slots' bp.addr = some bp := by
  induction slots with
  | nil => intro slots' _ hpl; simp [hwPlace] at hpl
  | cons s rest ih =>
    intro slots' hnone hpl
    cases s with
    | none =>
      simp only [hwPlace, Option.some.injEq] at hpl
      subst hpl
      simp [hwFind]
    | some b =>
      have hb : ¬ b.addr = bp.addr := by
        intro hb
        simp [hwFind, hb] at hnone
      simp only [hwFind, if_neg hb] at hnone
      simp only [hwPlace, Option.map_eq_some'] at hpl
      rcases hpl with ⟨s', hs', rfl⟩
      simpa [hwFind, hb] using ih s' hnone hs'

theorem bpAt_eq_none (d : DebuggedProcess) (a : Nat) (h : bpAt d a = none) :
    hwFind d.hwBreakPoints a = none ∧ swLookup d.breakPoints a = none := by
  unfold bpAt at h
  cases hh : hwFind d.hwBreakPoints a with
  | some b => rw [hh] at h; exact absurd h (by simp)
  | none => rw [hh] at h; exact ⟨rfl, by simpa using h⟩

theorem setBreakpoint_ok_bpAt (d d2 : DebuggedProcess) (a : Nat) (nb : BreakPoint)
    (h : setBreakpoint d a = .ok (d2, nb)) : bpAt d2 a = some nb ∧ nb.addr = a := by
  have hg : ¬ (bpAt d a).isSome = true := by
    intro hg
    unfold setBreakpoint at h
    rw [if_pos hg] at h
    exact absurd h (by simp)
  have hnone : bpAt d a = none := by
    cases hb : bpAt d a
    · rfl
    · rw [hb] at hg; exact absurd rfl hg
  obtain ⟨hhw, hsw⟩ := bpAt_eq_none d a hnone
  cases hp : hwPlace d.hwBreakPoints
      { id := d.breakpointIDCounter + 1, addr := a, temp := false } with
  | some slots =>
    simp only [setBreakpoint, if_neg hg, hp, Except.ok.injEq, Prod.mk.injEq] at h
    obtain ⟨hd2, hnb⟩ := h
    subst hd2
    subst hnb
    refine ⟨?_, rfl⟩
    have hf := hwFind_hwPlace d.hwBreakPoints
      { id := d.breakpointIDCounter + 1, addr := a, temp := false } slots hhw hp
    simp only [bpAt]
    rw [hf]
  | none =>
    simp only [setBreakpoint, if_neg hg, hp, Except.ok.injEq, Prod.mk.injEq] at h
    obtain ⟨hd2, hnb⟩ := h
    subst hd2
    subst hnb
    refine ⟨?_, rfl⟩
    simp only [bpAt]
    rw [hhw]
    simp [swInsert, swLookup]

theorem setBreakpoint_isOk (d : DebuggedProcess) (a : Nat) (h : bpAt d a = none) :
    ∃ p, setBreakpoint d a = .ok p := by
  have hg : ¬ (bpAt d a).isSome = true := by simp [h]
  cases hp : hwPlace d.hwBreakPoints
      { id := d.breakpointIDCounter + 1, addr := a, temp := false } with
  | some slots =>
    exact ⟨_, by simp only [setBreakpoint, if_neg hg, hp]; rfl⟩
  | none =>
    exact ⟨_, by simp only [setBreakpoint, if_neg hg, hp]; rfl⟩

theorem swLookup_map_temp (l : List (Nat × BreakPoint)) (a : Nat) :
    swLookup
      (l.map (fun p => if p.1 = a then (p.1, { p.2 with temp := true }) else p)) a
      = (swLookup l a).map (fun b => { b with temp := true }) := by
  induction l with
  | nil => rfl
  | cons p rest ih =>
    rcases p with ⟨k, bp⟩
    rw [List.map_cons]
    show swLookup ((if k = a then (k, { bp with temp := true }) else (k, bp)) ::
        List.map (fun p => if p.1 = a then (p.1, { p.2 with temp := true }) else p)
          rest) a
      = Option.map (fun b => { b with temp := true }) (swLookup ((k, bp) :: rest) a)
    by_cases h : k = a
    · subst h
      rw [if_pos rfl]
      simp [swLookup]
    · rw [if_neg h]
      simp [swLookup, h, ih]

theorem bpAt_markTemp (d : DebuggedProcess) (a : Nat) (bp : BreakPoint)
    (h : bpAt d a = some bp) :
    bpAt (markTemp d a) a = some { bp with temp := true } := by
  cases hh : hwFind d.hwBreakPoints a with
  | some b =>
    have hb : b = bp := by
      have h2 := h
      unfold bpAt at h2
      rw [hh] at h2
      simpa using h2
    subst hb
    have hm := hwFind_hwMarkTemp d.hwBreakPoints a b hh
    simp [markTemp, hh, bpAt, hm]
  | none =>
    have hsw : swLookup d.breakPoints a = some bp := by
      have h2 := h
      unfold bpAt at h2
      rw [hh] at h2
      simpa using h2
    simp [markTemp, hh, bpAt, swLookup_map_temp, hsw]

/-! ## Claim theorems -/

/-- C7: every driver call executed through `run(f)` swallows a
`ManualStop` error from `f` (returning success), returns any other
error of `f` unchanged, and leaves the `running` flag false on return,
so `Running()` reports false. -/
theorem run_guard_spec (dbp : DebuggedProcess)
    (f : DebuggedProcess → DebuggedProcess × Option Err) :
    Running (run dbp f).1 = false ∧
    ((f { dbp with running := true, halt := false }).2 = some .manualStop →
      (run dbp f).2 = none) ∧
    (∀ e, (f { dbp with running := true, halt := false }).2 = some e →
      e ≠ .manualStop → (run dbp f).2 = some e) ∧
    ((f { dbp with running := true, halt := false }).2 = none →
      (run dbp f).2 = none) := by
  cases hr : (f { dbp with running := true, halt := false }).2 with
  | none => simp [run, Running, hr]
  | some e =>
    by_cases he : e = Err.manualStop
    · subst he
      simp [run, Running, hr]
    · simp [run, Running, hr, he]

/-- Witness for `run_guard_spec` at concrete driver bodies. -/
theorem run_guard_spec_witness :
    (run dpEmpty (fun d => (d, some .manualStop))).2 = none ∧
    (run dpEmpty (fun d => (d, some (.backend "boom")))).2
      = some (.backend "boom") ∧
    Running (run dpEmpty (fun d => (d, none))).1 = false :=
  ⟨(run_guard_spec dpEmpty (fun d => (d, some .manualStop))).2.1 rfl,
   (run_guard_spec dpEmpty (fun d => (d, some (.backend "boom")))).2.2.1
     (.backend "boom") rfl (by decide),
   (run_guard_spec dpEmpty (fun d => (d, none))).1⟩

/-- C10: on both backends `addThread` is idempotent — for a thread id
already present in the registry it returns the existing context and
leaves the state unchanged, issuing no attach, wait or ptrace-option
call (the oracle is never consulted and the action trace is empty). -/
theorem add_thread_idempotent (dbp : DebuggedProcess) (tid : Nat) (att : Bool)
    (o : LinuxThreadOracle) (h : tid ∈ dbp.threads) :
    addThreadL dbp tid att o = (dbp, [], .ok tid) ∧
    addThreadD dbp tid = (dbp, tid) := by
  constructor
  · unfold addThreadL
    rw [if_pos h]
  · unfold addThreadD
    rw [if_pos h]

/-- Witness for `add_thread_idempotent`: a registered tid with an
oracle whose every syscall would fail. -/
theorem add_thread_idempotent_witness :
    addThreadL dpOneThread 1 true
      { attach := .fail, attachWait := .error .panicErr,
        setOpts := .esrch (some .panicErr) (some .panicErr) }
      = (dpOneThread, [], .ok 1) ∧
    addThreadD dpOneThread 1 = (dpOneThread, 1) :=
  add_thread_idempotent dpOneThread 1 true
    { attach := .fail, attachWait := .error .panicErr,
      setOpts := .esrch (some .panicErr) (some .panicErr) }
    (by decide)

/-- C3: when `Continue` dispatches a trap at `pc` outside
`runtime.breakpoint`, a hardware breakpoint matching `pc` exactly halts
the process when permanent and passes through when temporary; otherwise
a software breakpoint registered at `pc - 1` obeys the same rule;
otherwise the dispatch fails with the unrecognized-breakpoint error. -/
theorem continue_dispatch_rules (pcToFunc : Nat → Option String)
    (stepErrs : Nat → Option Err) (haltErr : Option Err)
    (dbp : DebuggedProcess) (tid pc : Nat)
    (hfn : pcToFunc pc ≠ some "runtime.breakpoint") :
    (∀ bp, hwMatch dbp.hwBreakPoints pc = some bp →
      continueDispatch pcToFunc stepErrs haltErr dbp tid pc =
        if bp.temp then ([], none) else ([.haltAll], haltErr)) ∧
    (hwMatch dbp.hwBreakPoints pc = none →
      ∀ bp, swLookup dbp.breakPoints (dec64 pc) = some bp →
        continueDispatch pcToFunc stepErrs haltErr dbp tid pc =
          if bp.temp then ([], none) else ([.haltAll], haltErr)) ∧
    (hwMatch dbp.hwBreakPoints pc = none →
      swLookup dbp.breakPoints (dec64 pc) = none →
      continueDispatch pcToFunc stepErrs haltErr dbp tid pc =
        ([], some (.unrecognizedBreakpoint pc))) := by
  refine ⟨?_, ?_, ?_⟩
  · intro bp hbp
    simp only [continueDispatch, if_neg hfn, hwMatch] at *
    rw [hbp]
  · intro hnone bp hbp
    simp only [continueDispatch, if_neg hfn, hwMatch] at *
    rw [hnone, hbp]
  · intro hnone hsw
    simp only [continueDispatch, if_neg hfn, hwMatch] at *
    rw [hnone, hsw]

/-- Witness for `continue_dispatch_rules`: a permanent hardware hit at
4096, a permanent software hit at trap PC 8193 (breakpoint at 8192),
and an unknown trap at 5, in the state `dpIds`. -/
theorem continue_dispatch_rules_witness :
    continueDispatch (fun _ => none) (fun _ => none) none dpIds 1 4096
      = ([.haltAll], none) ∧
    continueDispatch (fun _ => none) (fun _ => none) none dpIds 1 8193
      = ([.haltAll], none) ∧
    continueDispatch (fun _ => none) (fun _ => none) none dpIds 1 5
      = ([], some (.unrecognizedBreakpoint 5)) := by
  refine ⟨?_, ?_, ?_⟩
  · exact (continue_dispatch_rules (fun _ => none) (fun _ => none) none dpIds 1 4096
      (by decide)).1 { id := 7, addr := 4096, temp := false } (by decide)
  · exact (continue_dispatch_rules (fun _ => none) (fun _ => none) none dpIds 1 8193
      (by decide)).2.1 (by decide) { id := 9, addr := 8192, temp := false } (by decide)
  · exact (continue_dispatch_rules (fun _ => none) (fun _ => none) none dpIds 1 5
      (by decide)).2.2 (by decide) (by decide)

/-- C5: when `Continue` receives a trap whose PC resolves to
`runtime.breakpoint` and both steps succeed, it performs exactly two
steps on the trapping thread and then halts, returning successfully;
the dispatch never consults the breakpoint tables (its result is the
same in any process state). -/
theorem continue_runtime_breakpoint (pcToFunc : Nat → Option String)
    (stepErrs : Nat → Option Err) (haltErr : Option Err)
    (dbp dbp2 : DebuggedProcess) (tid pc : Nat)
    (hfn : pcToFunc pc = some "runtime.breakpoint")
    (h0 : stepErrs 0 = none) (h1 : stepErrs 1 = none) :
    continueDispatch pcToFunc stepErrs haltErr dbp tid pc
      = ([.stepThread tid, .stepThread tid, .haltAll], none) ∧
    continueDispatch pcToFunc stepErrs haltErr dbp2 tid pc
      = continueDispatch pcToFunc stepErrs haltErr dbp tid pc := by
  constructor
  · simp [continueDispatch, hfn, h0, h1]
  · simp [continueDispatch, hfn, h0, h1]

/-- Witness for `continue_runtime_breakpoint`: the trap is handled
identically in the empty state and in a state full of breakpoints. -/
theorem continue_runtime_breakpoint_witness :
    continueDispatch (fun _ => some "runtime.breakpoint") (fun _ => none) none
      dpEmpty 1 7 = ([.stepThread 1, .stepThread 1, .haltAll], none) ∧
    continueDispatch (fun _ => some "runtime.breakpoint") (fun _ => none) none
      dpIds 1 7
      = continueDispatch (fun _ => some "runtime.breakpoint") (fun _ => none) none
          dpEmpty 1 7 :=
  continue_runtime_breakpoint (fun _ => some "runtime.breakpoint") (fun _ => none)
    none dpEmpty dpIds 1 7 rfl rfl rfl

/-- C4: when `ThreadContext.Step` runs with a software breakpoint
covering `pc - 1` (keyed at its own address, with no hardware
breakpoint shadowing it) and the PC rewind succeeds, the breakpoint is
cleared, the PC is rewound to the breakpoint address, a single-step is
issued, and a breakpoint is re-armed at that address — on both exit
paths of the step, whether the single-step succeeds or fails. -/
theorem thread_step_rearm (dbp : DebuggedProcess) (tid pc : Nat) (bp : BreakPoint)
    (hbp : swLookup dbp.breakPoints (dec64 pc) = some bp)
    (hkey : bp.addr = dec64 pc)
    (hhw : hwFind dbp.hwBreakPoints bp.addr = none) :
    ∀ stepErr,
      (threadStep dbp tid pc none stepErr).2.1
        = [.clearBP bp.addr, .setPC tid bp.addr, .singleStep tid, .plantBP bp.addr] ∧
      (bpAt (threadStep dbp tid pc none stepErr).1 bp.addr).isSome = true ∧
      (threadStep dbp tid pc none stepErr).2.2 = none := by
  intro stepErr
  have hsw' : swLookup dbp.breakPoints bp.addr = some bp := by rw [hkey]; exact hbp
  have hclear : Clear dbp bp.addr
      = .ok ({ dbp with breakPoints := swErase dbp.breakPoints bp.addr }, bp) := by
    unfold Clear clearBreakpoint
    rw [hhw, hsw']
  have hnone :
      bpAt { dbp with breakPoints := swErase dbp.breakPoints bp.addr } bp.addr
        = none := by
    unfold bpAt
    rw [show ({ dbp with breakPoints := swErase dbp.breakPoints bp.addr }
        : DebuggedProcess).hwBreakPoints = dbp.hwBreakPoints from rfl]
    rw [hhw]
    exact swLookup_swErase_self dbp.breakPoints bp.addr
  obtain ⟨p, hp⟩ := setBreakpoint_isOk _ bp.addr hnone
  rcases p with ⟨d2, nb⟩
  obtain ⟨hbpat, _⟩ := setBreakpoint_ok_bpAt _ _ _ _ hp
  have hpB : Break { dbp with breakPoints := swErase dbp.breakPoints bp.addr }
      bp.addr = .ok (d2, nb) := hp
  have hres : threadStep dbp tid pc none stepErr
      = (d2, [.clearBP bp.addr, .setPC tid bp.addr, .singleStep tid,
              .plantBP bp.addr], none) := by
    simp only [threadStep, hbp, hclear, hpB]
  rw [hres]
  exact ⟨rfl, by simp [hbpat], rfl⟩

/-- Witness for `thread_step_rearm` in the state `dpSw99` (software
breakpoint at 99, trap PC 100), for both a successful and a failing
single-step. -/
theorem thread_step_rearm_witness :
    (threadStep dpSw99 1 100 none none).2.1
      = [.clearBP 99, .setPC 1 99, .singleStep 1, .plantBP 99] ∧
    (bpAt (threadStep dpSw99 1 100 none (some (.backend "boom"))).1 99).isSome
      = true := by
  have h := thread_step_rearm dpSw99 1 100 { id := 3, addr := 99, temp := false }
    (by decide) (by decide) (by decide)
  exact ⟨(h none).1, (h (some (.backend "boom"))).2.1⟩

/-- C2: the planting loop of the per-thread `Next` skips every
line-table row whose address equals the adjusted `pc`; at a row at or
beyond `fde.End()` it reads the saved return address from memory at
`SP + (ReturnAddressOffset(pc) - 8)`, plants a breakpoint there (marked
temporary when the plant succeeds) and stops iterating; at a row inside
the function it plants a temporary breakpoint at the row's address,
tolerating an existing breakpoint by continuing with the further
rows. -/
theorem thread_next_loop_spec (pc fdeEnd sp : Nat) (mem : Int → Nat) (retOff : Int)
    (dbp : DebuggedProcess) (rest : List Nat) (a : Nat) :
    threadNextLoop pc fdeEnd sp mem retOff dbp (pc :: rest)
      = threadNextLoop pc fdeEnd sp mem retOff dbp rest ∧
    (a ≠ pc → fdeEnd ≤ a →
      ((threadNextLoop pc fdeEnd sp mem retOff dbp (a :: rest)).2.1
          = [.plantBP (ReturnAddressFromOffset sp mem (retOff - 8))] ∧
       (threadNextLoop pc fdeEnd sp mem retOff dbp (a :: rest)).2.2 = none ∧
       ∀ r, Break dbp (ReturnAddressFromOffset sp mem (retOff - 8)) = .ok r →
         bpAt (threadNextLoop pc fdeEnd sp mem retOff dbp (a :: rest)).1
             (ReturnAddressFromOffset sp mem (retOff - 8))
           = some { r.2 with temp := true })) ∧
    (a ≠ pc → a < fdeEnd →
      ((∀ r, Break dbp a = .ok r →
        threadNextLoop pc fdeEnd sp mem retOff dbp (a :: rest)
          = ((threadNextLoop pc fdeEnd sp mem retOff (markTemp r.1 a) rest).1,
             .plantBP a
               :: (threadNextLoop pc fdeEnd sp mem retOff (markTemp r.1 a) rest).2.1,
             (threadNextLoop pc fdeEnd sp mem retOff (markTemp r.1 a) rest).2.2) ∧
        bpAt (markTemp r.1 a) a = some { r.2 with temp := true }) ∧
      (Break dbp a = .error (.breakpointExists a) →
        threadNextLoop pc fdeEnd sp mem retOff dbp (a :: rest)
          = ((threadNextLoop pc fdeEnd sp mem retOff dbp rest).1,
             .plantBP a :: (threadNextLoop pc fdeEnd sp mem retOff dbp rest).2.1,
             (threadNextLoop pc fdeEnd sp mem retOff dbp rest).2.2)))) := by
  refine ⟨by simp [threadNextLoop], ?_, ?_⟩
  · intro ha hle
    cases hbr : Break dbp (ReturnAddressFromOffset sp mem (retOff - 8)) with
    | ok r =>
      rcases r with ⟨d2, nb⟩
      obtain ⟨hbpat, _⟩ := setBreakpoint_ok_bpAt _ _ _ _ hbr
      have hloop : threadNextLoop pc fdeEnd sp mem retOff dbp (a :: rest)
          = (markTemp d2 (ReturnAddressFromOffset sp mem (retOff - 8)),
             [.plantBP (ReturnAddressFromOffset sp mem (retOff - 8))], none) := by
        simp only [threadNextLoop, if_neg ha, if_pos hle, hbr]
      rw [hloop]
      refine ⟨rfl, rfl, ?_⟩
      intro r2 hr2
      cases hr2
      exact bpAt_markTemp _ _ _ hbpat
    | error e =>
      have hloop : threadNextLoop pc fdeEnd sp mem retOff dbp (a :: rest)
          = (dbp, [.plantBP (ReturnAddressFromOffset sp mem (retOff - 8))], none) := by
        simp only [threadNextLoop, if_neg ha, if_pos hle, hbr]
      rw [hloop]
      refine ⟨rfl, rfl, ?_⟩
      intro r2 hr2
      simp at hr2
  · intro ha hlt
    have hnle : ¬ fdeEnd ≤ a := not_le.mpr hlt
    constructor
    · intro r hbr
      rcases r with ⟨d2, nb⟩
      obtain ⟨hbpat, _⟩ := setBreakpoint_ok_bpAt _ _ _ _ hbr
      constructor
      · simp only [threadNextLoop, if_neg ha, if_neg hnle, hbr]
      · exact bpAt_markTemp _ _ _ hbpat
    · intro hbr
      simp only [threadNextLoop, if_neg ha, if_neg hnle, hbr]

/-- Witness for `thread_next_loop_spec`: from the empty state with
`pc = 10`, `fde.End() = 100`, `SP = 0`, memory constantly 555 and
return-address offset 16 — a self row is skipped, a row at 150 takes
the return-address path (planting at 555), and a row at 50 plants a
temporary breakpoint at 50. -/
theorem thread_next_loop_spec_witness :
    threadNextLoop 10 100 0 (fun _ => 555) 16 dpEmpty (10 :: [])
      = threadNextLoop 10 100 0 (fun _ => 555) 16 dpEmpty [] ∧
    (threadNextLoop 10 100 0 (fun _ => 555) 16 dpEmpty [150]).2.1
      = [.plantBP 555] ∧
    bpAt (markTemp ({ dpEmpty with
        hwBreakPoints := [some { id := 1, addr := 50, temp := false },
          none, none, none],
        breakpointIDCounter := 1 }) 50) 50
      = some { id := 1, addr := 50, temp := true } := by
  have h1 := thread_next_loop_spec 10 100 0 (fun _ => 555) 16 dpEmpty [] 150
  have h2 := thread_next_loop_spec 10 100 0 (fun _ => 555) 16 dpEmpty [] 50
  refine ⟨h1.1, (h1.2.1 (by decide) (by decide)).1, ?_⟩
  exact ((h2.2.2 (by decide) (by decide)).1
    ({ dpEmpty with
        hwBreakPoints := [some { id := 1, addr := 50, temp := false },
          none, none, none],
        breakpointIDCounter := 1 }, { id := 1, addr := 50, temp := false })
    (by rfl)).2

/-- On the ptrace host, adding an unregistered thread without attaching
succeeds when the trace-clone option call succeeds, and registers the
thread. -/
theorem addThreadL_noattach_ok (dbp : DebuggedProcess) (tid : Nat)
    (o : LinuxThreadOracle) (ho : o.setOpts = .ok) :
    (addThreadL dbp tid false o).2.2 = .ok tid ∧
    tid ∈ (addThreadL dbp tid false o).1.threads := by
  by_cases h : tid ∈ dbp.threads
  · unfold addThreadL
    rw [if_pos h]
    exact ⟨rfl, h⟩
  · cases hc : dbp.currentThread with
    | none => simp [addThreadL, h, ho, hc]
    | some t => simp [addThreadL, h, ho, hc]

/-- C6: a trace-clone wait event in the ptrace-host wait loop (with its
backend calls succeeding) adds the cloned tid to the registry, issues
continue on the child and then on the parent, and keeps waiting: the
overall result is whatever the rest of the event stream produces, so
the clone event yields no user-visible stop. -/
theorem trapwait_clone_event (dbp : DebuggedProcess) (e : LinuxWaitEvent)
    (rest : List LinuxWaitEvent)
    (hwf : e.waitFailed = false) (h0 : e.wpid ≠ 0) (hex : e.exited = false)
    (htrap : e.sigtrap = true) (hclone : e.cloneEvent = true)
    (hmsg : e.cloneMsgErr = false)
    (ho : e.threadOracle.setOpts = .ok)
    (hcc : e.contChildErr = none) (hcp : e.contParentErr = none) :
    trapWaitL dbp (e :: rest)
      = ((trapWaitL (addThreadL dbp e.cloneTid false e.threadOracle).1 rest).1,
         (addThreadL dbp e.cloneTid false e.threadOracle).2.1
           ++ [.contThread e.cloneTid, .contThread e.wpid]
           ++ (trapWaitL (addThreadL dbp e.cloneTid false e.threadOracle).1 rest).2.1,
         (trapWaitL (addThreadL dbp e.cloneTid false e.threadOracle).1 rest).2.2) ∧
    e.cloneTid ∈ (addThreadL dbp e.cloneTid false e.threadOracle).1.threads := by
  have hadd := addThreadL_noattach_ok dbp e.cloneTid e.threadOracle ho
  refine ⟨?_, hadd.2⟩
  cases hr : (addThreadL dbp e.cloneTid false e.threadOracle).2.2 with
  | error err => rw [hr] at hadd; exact absurd hadd.1 (by simp)
  | ok v =>
    simp only [trapWaitL, hwf, h0, hex, htrap, hclone, hmsg, hr, hcc, hcp]
    simp

/-- Witness for `trapwait_clone_event`: thread 1 of `dpOneThread`
clones tid 7; the stream then ends. -/
theorem trapwait_clone_event_witness :
    trapWaitL dpOneThread [cloneEventOk]
      = ((trapWaitL (addThreadL dpOneThread cloneEventOk.cloneTid false
            cloneEventOk.threadOracle).1 []).1,
         (addThreadL dpOneThread cloneEventOk.cloneTid false
            cloneEventOk.threadOracle).2.1
           ++ [.contThread cloneEventOk.cloneTid, .contThread cloneEventOk.wpid]
           ++ (trapWaitL (addThreadL dpOneThread cloneEventOk.cloneTid false
                cloneEventOk.threadOracle).1 []).2.1,
         (trapWaitL (addThreadL dpOneThread cloneEventOk.cloneTid false
            cloneEventOk.threadOracle).1 []).2.2) ∧
    cloneEventOk.cloneTid ∈ (addThreadL dpOneThread cloneEventOk.cloneTid false
      cloneEventOk.threadOracle).1.threads :=
  trapwait_clone_event dpOneThread cloneEventOk [] rfl (by decide) rfl rfl rfl
    rfl rfl rfl rfl

/-- The mach-host `addThread` preserves the registry invariant. -/
theorem addThreadD_inv (dbp : DebuggedProcess) (tid : Nat)
    (h : currentThreadInv dbp) : currentThreadInv (addThreadD dbp tid).1 := by
  by_cases hm : tid ∈ dbp.threads
  · unfold addThreadD
    rw [if_pos hm]
    exact h
  · cases hc : dbp.currentThread with
    | none =>
      simp [addThreadD, hm, hc, currentThreadInv, currentThreadInvB]
    | some t =>
      have ht : t ∈ dbp.threads := by
        simpa [currentThreadInv, currentThreadInvB, hc] using h
      simp [addThreadD, hm, hc, currentThreadInv, currentThreadInvB,
        List.mem_cons, ht]

/-- The ptrace-host `addThread` preserves the registry invariant. -/
theorem addThreadL_inv (dbp : DebuggedProcess) (tid : Nat) (att : Bool)
    (o : LinuxThreadOracle) (h : currentThreadInv dbp) :
    currentThreadInv (addThreadL dbp tid att o).1 := by
  by_cases hm : tid ∈ dbp.threads
  · unfold addThreadL
    rw [if_pos hm]
    exact h
  · unfold addThreadL
    rw [if_neg hm]
    dsimp only
    split
    · exact h
    · split
      · exact h
      · cases hc : dbp.currentThread with
        | none =>
          simp [hc, currentThreadInv, currentThreadInvB]
        | some t =>
          have ht : t ∈ dbp.threads := by
            simpa [currentThreadInv, currentThreadInvB, hc] using h
          simp [hc, currentThreadInv, currentThreadInvB, List.mem_cons, ht]

/-- The mach-host thread-list reconciliation preserves the registry
invariant. -/
theorem updateThreadListD_inv (dbp : DebuggedProcess) (kernel : Option (List Nat))
    (h : currentThreadInv dbp) :
    currentThreadInv (updateThreadListD dbp kernel).1 := by
  cases kernel with
  | none => exact h
  | some l =>
    simp only [updateThreadListD]
    induction l generalizing dbp with
    | nil => exact h
    | cons p rest ih =>
      rw [List.foldl_cons]
      exact ih (addThreadD dbp p).1 (addThreadD_inv dbp p h)

/-- C9 (amended): starting from a state satisfying the registry
invariant, `addThread` on both backends, `SwitchThread`, the
thread-switch step of `Continue`'s trap dispatch and the mach-host
thread reconciliation all preserve it; the mach-host wait loop
preserves it provided the thread port that fired is present in the
registry after reconciliation. -/
theorem current_thread_inv_ops (dbp : DebuggedProcess)
    (tid wpid port notifPort : Nat) (att : Bool) (o : LinuxThreadOracle)
    (kernel : Option (List Nat)) (exitWait : Except Err Nat)
    (hinv : currentThreadInv dbp) :
    currentThreadInv (addThreadL dbp tid att o).1 ∧
    currentThreadInv (addThreadD dbp tid).1 ∧
    currentThreadInv (SwitchThread dbp tid).1 ∧
    currentThreadInv (contSwitch dbp wpid).1 ∧
    currentThreadInv (updateThreadListD dbp kernel).1 ∧
    (port ∈ (updateThreadListD dbp kernel).1.threads →
      currentThreadInv (trapWaitD dbp notifPort port kernel exitWait).1) := by
  refine ⟨addThreadL_inv dbp tid att o hinv, addThreadD_inv dbp tid hinv,
    ?_, ?_, updateThreadListD_inv dbp kernel hinv, ?_⟩
  · unfold SwitchThread
    by_cases hm : tid ∈ dbp.threads
    · rw [if_pos hm]
      simpa [currentThreadInv, currentThreadInvB] using hm
    · rw [if_neg hm]
      exact hinv
  · unfold contSwitch
    by_cases hm : wpid ∈ dbp.threads
    · rw [if_pos hm]
      cases hc : dbp.currentThread with
      | none => exact hinv
      | some t =>
        dsimp only
        by_cases hw : wpid ≠ t
        · rw [if_pos hw]
          simpa [currentThreadInv, currentThreadInvB] using hm
        · rw [if_neg hw]
          exact hinv
    · rw [if_neg hm]
      exact hinv
  · intro hpm
    unfold trapWaitD
    by_cases h1 : port = machRcvInterrupted
    · rw [if_pos h1]
      exact hinv
    · rw [if_neg h1]
      by_cases h2 : port = notifPort
      · rw [if_pos h2]
        cases exitWait <;> exact hinv
      · rw [if_neg h2]
        by_cases h3 : port = 0
        · rw [if_pos h3]
          exact hinv
        · rw [if_neg h3]
          dsimp only
          have hd1 := updateThreadListD_inv dbp kernel hinv
          cases hc : (updateThreadListD dbp kernel).1.currentThread with
          | none => simpa [hc] using hd1
          | some t =>
            dsimp only
            by_cases hp : port ≠ t
            · rw [if_pos hp, if_pos hpm]
              simpa [currentThreadInv, currentThreadInvB] using hpm
            · rw [if_neg hp]
              exact hd1

/-- Witness for `current_thread_inv_ops` at a concrete state, with the
mach wait loop receiving a port known to the registry. -/
theorem current_thread_inv_ops_witness :
    currentThreadInv (addThreadD dpOneThread 2).1 ∧
    currentThreadInv (trapWaitD dpOneThread 5 1 (some [1]) (.ok 0)).1 := by
  have h := current_thread_inv_ops dpOneThread 2 1 1 5 false
    { attach := .ok, attachWait := .ok false, setOpts := .ok }
    (some [1]) (.ok 0) (by decide)
  exact ⟨h.2.1, h.2.2.2.2.2 (by decide)⟩

/-- C9 counterexample: in `dpOneThread` (thread 1 registered and
current) the mach-host wait loop, receiving a port (2) that the failed
thread-list query left unregistered, sets `CurrentThread` to nil even
though the registry is non-empty — the invariant is not preserved. -/
theorem mach_trapwait_current_thread_cex :
    currentThreadInv dpOneThread ∧
    ¬ currentThreadInv (trapWaitD dpOneThread 5 2 none (.ok 0)).1 := by decide

/-- Characterization of the `Next` cleanup loop: over a snapshot `l` of
software-map entries (keyed by their breakpoint addresses, none
shadowed by a hardware breakpoint, keys distinct), running the loop
removes from the software map exactly the temporary entries of `l` and
touches nothing else. -/
theorem clearTempGo_eq (l : List (Nat × BreakPoint)) (d : DebuggedProcess)
    (hsub : l.Sublist d.breakPoints)
    (hkey : ∀ p ∈ d.breakPoints, p.1 = p.2.addr)
    (hhw : ∀ p ∈ l, hwFind d.hwBreakPoints p.2.addr = none)
    (hnd : (d.breakPoints.map Prod.fst).Nodup) :
    clearTempGo l d
      = { d with breakPoints :=
            d.breakPoints.filter (fun q => !(decide (q ∈ l) && q.2.temp)) } := by
  induction l generalizing d with
  | nil =>
    have hfe : d.breakPoints.filter
        (fun q => !(decide (q ∈ ([] : List (Nat × BreakPoint))) && q.2.temp))
        = d.breakPoints :=
      List.filter_eq_self.mpr (fun q _ => by simp)
    simp only [clearTempGo, hfe]
  | cons p rest ih =>
    obtain ⟨pk, pb⟩ := p
    have hpd : (pk, pb) ∈ d.breakPoints := hsub.subset (List.mem_cons_self _ _)
    have hpk : pk = pb.addr := hkey (pk, pb) hpd
    by_cases ht : pb.temp
    · -- temporary entry: the Clear succeeds through the software branch
      have hhwp : hwFind d.hwBreakPoints pb.addr = none :=
        hhw (pk, pb) (List.mem_cons_self _ _)
      obtain ⟨bp0, hlook⟩ : ∃ bp0, swLookup d.breakPoints pb.addr = some bp0 := by
        have hs := swLookup_isSome d.breakPoints pb.addr ⟨(pk, pb), hpd, hpk⟩
        cases hx : swLookup d.breakPoints pb.addr
        · rw [hx] at hs; simp at hs
        · exact ⟨_, rfl⟩
      have hclear : Clear d pb.addr
          = .ok ({ d with breakPoints := swErase d.breakPoints pb.addr }, bp0) := by
        unfold Clear clearBreakpoint
        rw [hhwp, hlook]
      have hstep : clearTempGo ((pk, pb) :: rest) d
          = clearTempGo rest { d with breakPoints := swErase d.breakPoints pb.addr } := by
        simp only [clearTempGo, ht, if_true, hclear]
      -- keys of `rest` avoid the erased address
      have hndc : (((pk, pb) :: rest).map Prod.fst).Nodup :=
        hnd.sublist (hsub.map Prod.fst)
      have hpnotin : pk ∉ rest.map Prod.fst := by
        simpa using (List.nodup_cons.mp hndc).1
      have hrestkeys : ∀ q ∈ rest, q.1 ≠ pb.addr := by
        intro q hq he
        exact hpnotin (by
          have : q.1 = pk := he.trans hpk.symm
          exact this ▸ List.mem_map_of_mem Prod.fst hq)
      have hrfilter : rest.filter (fun q => decide (q.1 ≠ pb.addr)) = rest :=
        List.filter_eq_self.mpr (fun q hq => by simpa using hrestkeys q hq)
      have hsubrest : rest.Sublist d.breakPoints :=
        (List.sublist_cons_self (pk, pb) rest).trans hsub
      have hsub' : rest.Sublist (swErase d.breakPoints pb.addr) := by
        rw [← hrfilter]
        exact hsubrest.filter _
      have hih := ih { d with breakPoints := swErase d.breakPoints pb.addr } hsub'
        (fun q hq => hkey q (List.mem_of_mem_filter hq))
        (fun q hq => hhw q (List.mem_cons_of_mem _ hq))
        (hnd.sublist ((List.filter_sublist _).map Prod.fst))
      rw [hstep, hih]
      -- combine the two filters
      have hff : (swErase d.breakPoints pb.addr).filter
            (fun q => !(decide (q ∈ rest) && q.2.temp))
          = d.breakPoints.filter
            (fun q => !(decide (q ∈ (pk, pb) :: rest) && q.2.temp)) := by
        unfold swErase
        rw [List.filter_filter]
        refine List.filter_congr (fun q hq => ?_)
        by_cases hqp : q = (pk, pb)
        · subst hqp
          simp [hpk, ht]
        · have hq1 : q.1 ≠ pb.addr := by
            intro he
            exact hqp (eq_of_mem_keys_nodup d.breakPoints hnd q (pk, pb) hq hpd
              (he.trans hpk.symm))
          simp [hq1, List.mem_cons, hqp]
      rw [hff]
    · -- permanent entry: the loop skips it
      have htf : pb.temp = false := by
        cases hb : pb.temp
        · rfl
        · exact absurd hb ht
      have hstep : clearTempGo ((pk, pb) :: rest) d = clearTempGo rest d := by
        simp [clearTempGo, htf]
      have hih := ih d ((List.sublist_cons_self (pk, pb) rest).trans hsub) hkey
        (fun q hq => hhw q (List.mem_cons_of_mem _ hq)) hnd
      rw [hstep, hih]
      have hfc : d.breakPoints.filter (fun q => !(decide (q ∈ rest) && q.2.temp))
          = d.breakPoints.filter
            (fun q => !(decide (q ∈ (pk, pb) :: rest) && q.2.temp)) := by
        refine List.filter_congr (fun q hq => ?_)
        by_cases hqp : q = (pk, pb)
        · subst hqp
          simp [List.mem_cons, htf]
        · simp [List.mem_cons, hqp]
      rw [hfc]

/-- C1 (amended): on every exit path of process-wide `Next` — whatever
state and result the driver body produces — the deferred cleanup
removes every temporary breakpoint recorded in the software breakpoint
map and leaves the permanent software entries installed; the hardware
slots, including any temporary hardware breakpoints in them, are not
touched.  (The side conditions say the software map at the body's exit
is well-formed: entries keyed by their breakpoint address, distinct
keys, none shadowed by a hardware breakpoint.) -/
theorem next_clears_software_temps (dbp : DebuggedProcess)
    (body : DebuggedProcess → DebuggedProcess × Option Err)
    (hkey : ∀ p ∈ (body { dbp with running := true, halt := false }).1.breakPoints,
      p.1 = p.2.addr)
    (hhw : ∀ p ∈ (body { dbp with running := true, halt := false }).1.breakPoints,
      hwFind (body { dbp with running := true, halt := false }).1.hwBreakPoints
        p.2.addr = none)
    (hnd : ((body { dbp with running := true, halt := false }).1.breakPoints.map
      Prod.fst).Nodup) :
    (nextDriver dbp body).1
      = { (body { dbp with running := true, halt := false }).1 with
          breakPoints := (body { dbp with running := true, halt :=
            false }).1.breakPoints.filter (fun p => !p.2.temp),
          running := false } := by
  set mid := (body { dbp with running := true, halt := false }).1 with hmid
  have h1 : (nextDriver dbp body).1
      = { clearTempBreakpoints mid with running := false } := by
    unfold nextDriver run
    cases hb : (body { dbp with running := true, halt := false }).2 with
    | none => simp [← hmid, hb]
    | some e =>
      by_cases he : e = Err.manualStop
      · subst he
        simp [← hmid, hb]
      · simp [← hmid, hb, he]
  have h2 := clearTempGo_eq mid.breakPoints mid (List.Sublist.refl _) hkey hhw hnd
  have hfc : mid.breakPoints.filter
        (fun q => !(decide (q ∈ mid.breakPoints) && q.2.temp))
      = mid.breakPoints.filter (fun p => !p.2.temp) :=
    List.filter_congr (fun q hq => by simp [hq])
  rw [h1, show clearTempBreakpoints mid = clearTempGo mid.breakPoints mid from rfl,
    h2, hfc]

/-- Witness for `next_clears_software_temps`: in `dpSwMix` (a temporary
software breakpoint at 99, a permanent one at 120) a `Next` whose body
does nothing removes exactly the temporary entry. -/
theorem next_clears_software_temps_witness :
    (nextDriver dpSwMix (fun d => (d, none))).1
      = { dpSwMix with
          breakPoints := [(120, { id := 4, addr := 120, temp := false })],
          running := false, halt := false } :=
  next_clears_software_temps dpSwMix (fun d => (d, none))
    (by decide) (by decide) (by decide)

/-- C1 counterexample: in `dpHwTemp` a temporary hardware breakpoint
(slot 0, address 4096) survives a normal return of process-wide `Next`
(body trivial, as for a threadless process): the claim that every
`Temp` breakpoint — hardware or software — is removed by the time
`Next` returns is false on the code, whose cleanup only ranges over the
software map. -/
theorem next_hw_temp_not_cleared :
    (nextDriver dpHwTemp (fun d => (d, none))).2 = none ∧
    hwFind (nextDriver dpHwTemp (fun d => (d, none))).1.hwBreakPoints 4096
      = some { id := 1, addr := 4096, temp := true } := by decide

/-- C8: for an input without a colon that matches no function name,
`FindLocation` parses it as an unsigned integer (prefixes `0x`, `0o`,
`0b`, or plain decimal); a parse failure yields the location-not-found
error; a parsed id is first matched against the breakpoint IDs — the
four hardware slots before the software map — returning the matching
breakpoint's address, and an id owned by no breakpoint is returned
itself as a raw PC. -/
theorem find_location_numeric (lookupFuncEntry : String → Option Nat)
    (fileLineResult : Except Err Nat) (dbp : DebuggedProcess) (str : String)
    (hcolon : str.toList.contains ':' = false) (hfn : lookupFuncEntry str = none) :
    (parseUintSpec str = none →
      FindLocation lookupFuncEntry fileLineResult dbp str
        = .error (.locationNotFound str)) ∧
    (∀ id a, parseUintSpec str = some id →
      hwFindById dbp.hwBreakPoints id = some a →
      FindLocation lookupFuncEntry fileLineResult dbp str = .ok a) ∧
    (∀ id a, parseUintSpec str = some id →
      hwFindById dbp.hwBreakPoints id = none →
      swFindById dbp.breakPoints id = some a →
      FindLocation lookupFuncEntry fileLineResult dbp str = .ok a) ∧
    (∀ id, parseUintSpec str = some id →
      hwFindById dbp.hwBreakPoints id = none →
      swFindById dbp.breakPoints id = none →
      FindLocation lookupFuncEntry fileLineResult dbp str = .ok id) := by
  refine ⟨?_, ?_, ?_, ?_⟩ <;>
    · intros
      simp only [FindLocation, hcolon, Bool.false_eq_true, if_false, hfn, *]

/-- Witness for `find_location_numeric` in the state `dpIds`: "7" hits
the hardware breakpoint of ID 7 (address 4096), "9" the software
breakpoint of ID 9 (address 8192), "12" no breakpoint (returned as a
raw PC), and "zz" does not parse. -/
theorem find_location_numeric_witness :
    FindLocation (fun _ => none) (.error .panicErr) dpIds "7" = .ok 4096 ∧
    FindLocation (fun _ => none) (.error .panicErr) dpIds "9" = .ok 8192 ∧
    FindLocation (fun _ => none) (.error .panicErr) dpIds "12" = .ok 12 ∧
    FindLocation (fun _ => none) (.error .panicErr) dpIds "zz"
      = .error (.locationNotFound "zz") := by
  refine ⟨?_, ?_, ?_, ?_⟩
  · exact (find_location_numeric (fun _ => none) (.error .panicErr) dpIds "7"
      (by decide) rfl).2.1 7 4096 (by decide) (by decide)
  · exact (find_location_numeric (fun _ => none) (.error .panicErr) dpIds "9"
      (by decide) rfl).2.2.1 9 8192 (by decide) (by decide) (by decide)
  · exact (find_location_numeric (fun _ => none) (.error .panicErr) dpIds "12"
      (by decide) rfl).2.2.2 12 (by decide) (by decide) (by decide)
  · exact (find_location_numeric (fun _ => none) (.error .panicErr) dpIds "zz"
      (by decide) rfl).1 (by decide)
